import Mathlib

/-!
Verification of the PhotoPrint A4 layout engine and slot rasterizer.

The definitions below are a shallow embedding of the geometric core of
`src/App.tsx` and `src/types.ts`: target-size resolution, per-item
orientation, shelf packing onto A4 pages with the 0.001 cm epsilon
boundary checks, the horizontal centering pass, the rotation-to-fit
decision, and the cover/contain crop-and-fit geometry.  All lengths and
aspect ratios are modelled as exact rationals.
-/

namespace PhotoPrint

/-- Catalog entry: a named physical photo size in centimeters
(`PhotoSize` in `types.ts`; the `name` field is display-only). -/
structure PhotoSize where
  id : String
  widthCm : ℚ
  heightCm : ℚ
deriving DecidableEq

/-- The fixed size catalog `STANDARD_SIZES` from `types.ts`. -/
def STANDARD_SIZES : List PhotoSize :=
  [⟨"10x15", 10, 15⟩,
   ⟨"13x18", 13, 18⟩,
   ⟨"15x21", 15, 21⟩,
   ⟨"20x25", 20, 25⟩,
   ⟨"10x10", 10, 10⟩,
   ⟨"5x7", 5, 7⟩,
   ⟨"3x4", 3, 4⟩]

/-- `A4_WIDTH_CM` from `types.ts`. -/
def A4_WIDTH_CM : ℚ := 21

/-- `A4_HEIGHT_CM` from `types.ts`. -/
def A4_HEIGHT_CM : ℚ := 297 / 10

/-- The unit of a custom size (`customUnit` in `PrintSettings`). -/
inductive CustomUnit where
  | cm
  | inch
  | px
deriving DecidableEq

/-- Orientation policy (`orientation` in `PrintSettings`). -/
inductive Orientation where
  | auto
  | portrait
  | landscape
deriving DecidableEq

/-- Fit mode (`fitMode` in `PrintSettings`). -/
inductive FitMode where
  | cover
  | contain
deriving DecidableEq

/-- The settings snapshot (`PrintSettings` in `types.ts`). -/
structure PrintSettings where
  sizeId : String
  customWidth : ℚ
  customHeight : ℚ
  customUnit : CustomUnit
  hasBorder : Bool
  isPolaroid : Bool
  orientation : Orientation
  spacing : ℚ
  margin : ℚ
  fitMode : FitMode
deriving DecidableEq

/-- A source image (`ImageFile` in `types.ts`): the opaque file handle and
preview URL are irrelevant to the geometry, so only the id, copy count and
natural pixel dimensions are kept (dimensions are `0` until decode). -/
structure ImageFile where
  id : String
  copies : ℕ
  width : ℚ
  height : ℚ
deriving DecidableEq

/-- JavaScript `a || b` on a number with a nonzero default: `0` is falsy,
so a zero catalog value would fall back to the default. -/
def orDefault (v d : ℚ) : ℚ := if v = 0 then d else v

/-- `getTargetSize` from `App.tsx` (lines 88–103): resolve the settings to
a slot size in centimeters.  `custom` converts from the chosen unit
(inch → cm: ×2.54; px → cm at 300 DPI: ×2.54/300); otherwise the catalog
is searched by id, missing entries falling back to `10 × 15`. -/
def getTargetSize (s : PrintSettings) : ℚ × ℚ :=
  if s.sizeId = "custom" then
    match s.customUnit with
    | .cm => (s.customWidth, s.customHeight)
    | .inch => (s.customWidth * (254 / 100), s.customHeight * (254 / 100))
    | .px => (s.customWidth * (254 / 100) / 300, s.customHeight * (254 / 100) / 300)
  else
    match STANDARD_SIZES.find? (fun ps => ps.id = s.sizeId) with
    | some ps => (orDefault ps.widthCm 10, orDefault ps.heightCm 15)
    | none => (10, 15)

/-- The per-item orientation decision of `calculateLayout`
(`App.tsx` lines 132–150): given the natural slot `(tw, th)` and the
item's pixel dimensions, return the effective slot `(w, h)` and the
rotated flag.  Under `auto` the slot is swapped when the item's
landscape-ness (`width > height`) differs from the slot's. -/
def effectiveSize (o : Orientation) (tw th imgW imgH : ℚ) : ℚ × ℚ × Bool :=
  match o with
  | .auto =>
      if (decide (imgW > imgH)) ≠ (decide (tw > th)) then (th, tw, true)
      else (tw, th, false)
  | .landscape => if tw < th then (th, tw, true) else (tw, th, false)
  | .portrait => if tw > th then (th, tw, true) else (tw, th, false)

/-- One placed copy on a page (the record pushed into `currentImages` in
`calculateLayout`): source item, top-left corner, slot size, rotated flag. -/
structure PlacedItem where
  img : ImageFile
  x : ℚ
  y : ℚ
  w : ℚ
  h : ℚ
  isRotated : Bool
deriving DecidableEq

/-- A page of the layout (`{ images: ... }` in `calculateLayout`). -/
structure Page where
  images : List PlacedItem
deriving DecidableEq

/-- The epsilon used by the packing boundary checks (`+ 0.001` in
`App.tsx` lines 153 and 160). -/
def EPS : ℚ := 1 / 1000

/-- The mutable cursor state of the packing loop in `calculateLayout`:
sealed pages, the current page's items, the cursor, and the row height. -/
structure LayoutState where
  pages : List Page
  currentImages : List PlacedItem
  currentX : ℚ
  currentY : ℚ
  rowHeight : ℚ
deriving DecidableEq

/-- One iteration of the packing loop in `calculateLayout`
(`App.tsx` lines 127–171): orient the item, wrap the row when
`currentX + w > pageWidth − margin + 0.001`, seal the page when (after
any wrap) `currentY + h > pageHeight − margin + 0.001`, then place the
item at the cursor, advance `currentX` and update `rowHeight`. -/
def placeOne (s : PrintSettings) (tw th : ℚ) (st : LayoutState)
    (img : ImageFile) : LayoutState :=
  let e := effectiveSize s.orientation tw th img.width img.height
  let w := e.1
  let h := e.2.1
  let isRotated := e.2.2
  let wrap := st.currentX + w > A4_WIDTH_CM - s.margin + EPS
  let x1 := if wrap then s.margin else st.currentX
  let y1 := if wrap then st.currentY + st.rowHeight + s.spacing else st.currentY
  let rh1 := if wrap then 0 else st.rowHeight
  if y1 + h > A4_HEIGHT_CM - s.margin + EPS then
    { pages := st.pages ++ [⟨st.currentImages⟩],
      currentImages := [⟨img, s.margin, s.margin, w, h, isRotated⟩],
      currentX := s.margin + w + s.spacing,
      currentY := s.margin,
      rowHeight := max 0 h }
  else
    { pages := st.pages,
      currentImages := st.currentImages ++ [⟨img, x1, y1, w, h, isRotated⟩],
      currentX := x1 + w + s.spacing,
      currentY := y1,
      rowHeight := max rh1 h }

/-- The copy fan-out `allItemsToPrint` of `calculateLayout`
(`App.tsx` lines 120–125): each source item repeated `copies` times,
input order preserved. -/
def allItemsToPrint (images : List ImageFile) : List ImageFile :=
  (images.map (fun img => List.replicate img.copies img)).flatten

/-- The initial cursor state of the packing loop: no pages, empty current
page, cursor at `(margin, margin)`, row height `0`. -/
def initState (m : ℚ) : LayoutState := ⟨[], [], m, m, 0⟩

/-- The whole packing loop of `calculateLayout` run over the expanded
item list. -/
def packItems (images : List ImageFile) (s : PrintSettings) : LayoutState :=
  (allItemsToPrint images).foldl
    (placeOne s (getTargetSize s).1 (getTargetSize s).2) (initState s.margin)

/-- Pages after packing, before centering: the loop's sealed pages plus
the final page when it holds any items (`App.tsx` lines 173–175). -/
def rawPages (images : List ImageFile) (s : PrintSettings) : List Page :=
  let st := packItems images s
  if 0 < st.currentImages.length then st.pages ++ [⟨st.currentImages⟩] else st.pages

/-- `Math.min(...)` over a list, as used for `minX` in the centering pass. -/
def listMin (l : List ℚ) : ℚ :=
  match l with
  | [] => 0
  | a :: as => as.foldl min a

/-- `Math.max(...)` over a list, as used for `maxX` in the centering pass. -/
def listMax (l : List ℚ) : ℚ :=
  match l with
  | [] => 0
  | a :: as => as.foldl max a

/-- `minX` of the centering pass: least left edge of a page's items. -/
def minX (L : List PlacedItem) : ℚ := listMin (L.map (fun it => it.x))

/-- `maxX` of the centering pass: greatest right edge (`x + w`). -/
def maxXW (L : List PlacedItem) : ℚ := listMax (L.map (fun it => it.x + it.w))

/-- The horizontal centering pass for one page (`App.tsx` lines 177–190):
an empty page is left alone; otherwise every item is shifted by
`(pageWidth − contentWidth)/2 − minX`.  Only `x` changes. -/
def centerPage (p : Page) : Page :=
  if p.images = [] then p
  else
    let mn := minX p.images
    let mx := maxXW p.images
    let offsetX := (A4_WIDTH_CM - (mx - mn)) / 2 - mn
    ⟨p.images.map (fun it => { it with x := it.x + offsetX })⟩

/-- `calculateLayout` from `App.tsx` (lines 106–193): pack all copies
onto A4 pages, then center each page horizontally. -/
def calculateLayout (images : List ImageFile) (s : PrintSettings) : List Page :=
  (rawPages images s).map centerPage

/-- The rotation-to-fit decision of the slot rasterizer
(`App.tsx` lines 230–233 and 363–366): rotate the source 90° when one of
slot aspect and image aspect is landscape-leaning (> 1) and the other
portrait-leaning (< 1). -/
def shouldRotate (slotW slotH imgW imgH : ℚ) : Bool :=
  let slotAspect := slotW / slotH
  let imgAspect := imgW / imgH
  (slotAspect > 1 && imgAspect < 1) || (slotAspect < 1 && imgAspect > 1)

/-- Result of the crop/fit computation: the optional source crop
rectangle `(sourceX, sourceY, sourceW, sourceH)` and the destination
drawing rectangle `(drawX, drawY, drawW, drawH)`. -/
structure FitResult where
  crop : Option (ℚ × ℚ × ℚ × ℚ)
  dest : ℚ × ℚ × ℚ × ℚ
deriving DecidableEq

/-- The crop/fit geometry of the slot rasterizer (`App.tsx` lines
272–307, identical in `saveToPNG` lines 395–429): given the source pixel
size, whether the source was rotated to fit, and the usable drawing
rectangle, `cover` crops the source to the destination aspect (sides
centered, top/bottom with the 0.35 top bias) and fills the whole usable
rectangle, while `contain` draws the whole source scaled to fit,
centered along the slack axis. -/
def computeFit (fm : FitMode) (imgW imgH : ℚ) (rot : Bool)
    (drawX drawY drawW drawH : ℚ) : FitResult :=
  let currentImgAspect := if rot then imgH / imgW else imgW / imgH
  let targetAspect := drawW / drawH
  match fm with
  | .cover =>
      if currentImgAspect > targetAspect then
        let sourceW := imgH * targetAspect
        let sourceX := (imgW - sourceW) / 2
        ⟨some (sourceX, 0, sourceW, imgH), (drawX, drawY, drawW, drawH)⟩
      else
        let sourceH := imgW / targetAspect
        let sourceY := (imgH - sourceH) * (35 / 100)
        ⟨some (0, sourceY, imgW, sourceH), (drawX, drawY, drawW, drawH)⟩
  | .contain =>
      if currentImgAspect > targetAspect then
        let finalDrawH := drawW / currentImgAspect
        let finalDrawY := drawY + (drawH - finalDrawH) / 2
        ⟨none, (drawX, finalDrawY, drawW, finalDrawH)⟩
      else
        let finalDrawW := drawH * currentImgAspect
        let finalDrawX := drawX + (drawW - finalDrawW) / 2
        ⟨none, (finalDrawX, drawY, finalDrawW, drawH)⟩

/-! ### Concrete inputs used by the scenario claims -/

/-- The settings of spec scenario 1: slot `10x15`, margin 0.3, spacing
0.2, orientation `auto`, cover fit. -/
def scenario1Settings : PrintSettings :=
  ⟨"10x15", 10, 15, .cm, false, false, .auto, 2 / 10, 3 / 10, .cover⟩

/-- Three items whose pixel dimensions are still unknown (0×0), one copy
each, as in spec scenario 1. -/
def scenario1Images : List ImageFile :=
  [⟨"a", 1, 0, 0⟩, ⟨"b", 1, 0, 0⟩, ⟨"c", 1, 0, 0⟩]

/-- A settings value whose `sizeId` matches neither `custom` nor any
catalog entry. -/
def bogusSettings : PrintSettings :=
  ⟨"9x13", 10, 15, .cm, false, false, .auto, 2 / 10, 3 / 10, .cover⟩

end PhotoPrint

namespace PhotoPrint

/-! ### C9: custom size resolution -/

/-- C9: for a `custom` size selection the resolved slot size is the
custom width/height converted by unit — unchanged for `cm`, ×2.54 for
`inch`, ×2.54/300 for `px`; in particular 1000 px × 1500 px resolves to
`(127/15, 127/10)` cm = (8.4666…, 12.7) cm. -/
theorem C9_custom_size_resolution :
    (∀ (cw ch : ℚ) (u : CustomUnit) (hb ip : Bool) (o : Orientation)
        (sp m : ℚ) (fm : FitMode),
      getTargetSize ⟨"custom", cw, ch, u, hb, ip, o, sp, m, fm⟩ =
        match u with
        | .cm => (cw, ch)
        | .inch => (cw * (254 / 100), ch * (254 / 100))
        | .px => (cw * (254 / 100) / 300, ch * (254 / 100) / 300)) ∧
    getTargetSize ⟨"custom", 1000, 1500, .px, false, false, .auto, 2 / 10, 3 / 10, .cover⟩ =
      (127 / 15, 127 / 10) := by
  constructor
  · intro cw ch u hb ip o sp m fm
    cases u <;> simp [getTargetSize]
  · norm_num [getTargetSize]

/-! ### C10: unrecognized size ids fall back to 10×15 -/

/-- C10: target-size resolution is total — a `sizeId` that is neither
`custom` nor a catalog id silently resolves to the default 10×15 cm
slot. -/
theorem C10_unknown_size_fallback (s : PrintSettings)
    (hc : s.sizeId ≠ "custom")
    (hn : ∀ ps ∈ STANDARD_SIZES, ps.id ≠ s.sizeId) :
    getTargetSize s = (10, 15) := by
  unfold getTargetSize
  rw [if_neg hc]
  have hfind : STANDARD_SIZES.find? (fun ps => ps.id = s.sizeId) = none := by
    rw [List.find?_eq_none]
    intro ps hps
    simp [hn ps hps]
  rw [hfind]

/-- Witness for C10 at the concrete unrecognized id `9x13`. -/
theorem C10_unknown_size_fallback_witness :
    bogusSettings.sizeId ≠ "custom" ∧
    (∀ ps ∈ STANDARD_SIZES, ps.id ≠ bogusSettings.sizeId) ∧
    getTargetSize bogusSettings = (10, 15) :=
  ⟨by decide, by decide,
   C10_unknown_size_fallback bogusSettings (by decide) (by decide)⟩

/-! ### C3: scenario 1 — three unknown-size items -/

/-- C3 counterexample: spec scenario 1 claims all three items land on a
single page, but the layout produces two pages — the third item's row
would start at y = 15.5 and 15.5 + 15 = 30.5 exceeds 29.7 − 0.3 + 0.001,
so the page is sealed and the item opens page 2. -/
theorem C3_scenario1_counterexample :
    ¬ (calculateLayout scenario1Images scenario1Settings).length = 1 := by
  norm_num [calculateLayout, rawPages, packItems, allItemsToPrint, initState,
    placeOne, effectiveSize, getTargetSize, scenario1Settings, scenario1Images,
    STANDARD_SIZES, List.find?, orDefault, A4_WIDTH_CM, A4_HEIGHT_CM, EPS,
    centerPage, minX, maxXW, listMin, listMax, max_def, List.cons_ne_nil]

/-- C3 amended: in spec scenario 1 only two items fit per row
(0.3+10+0.2+10 = 20.5 ≤ 20.701 but a third 10-wide item would overflow),
and the third item does not wrap to a second row of the same page — the
second row (y = 15.5, height 15) overflows the page, so the third item
is placed alone on a second page.  After centering, page 1 holds items
at (0.4, 0.3) and (10.6, 0.3) and page 2 holds the third at (5.5, 0.3),
all slots 10×15 and unrotated. -/
theorem C3_scenario1_amended :
    calculateLayout scenario1Images scenario1Settings =
      [⟨[⟨⟨"a", 1, 0, 0⟩, 2 / 5, 3 / 10, 10, 15, false⟩,
         ⟨⟨"b", 1, 0, 0⟩, 53 / 5, 3 / 10, 10, 15, false⟩]⟩,
       ⟨[⟨⟨"c", 1, 0, 0⟩, 11 / 2, 3 / 10, 10, 15, false⟩]⟩] := by
  norm_num [calculateLayout, rawPages, packItems, allItemsToPrint, initState,
    placeOne, effectiveSize, getTargetSize, scenario1Settings, scenario1Images,
    STANDARD_SIZES, List.find?, orDefault, A4_WIDTH_CM, A4_HEIGHT_CM, EPS,
    centerPage, minX, maxXW, listMin, listMax, max_def, List.cons_ne_nil]

/-! ### C4: items with unknown dimensions under `auto` -/

/-- C4 counterexample: a 0×0 item under `auto` is not left unswapped for
every natural slot — with the landscape natural slot 15×10 the code
compares `0 > 0` (false, portrait-leaning) against `15 > 10` (true),
finds a mismatch, swaps the slot and sets the rotated flag. -/
theorem C4_unknown_dims_counterexample :
    ¬ effectiveSize .auto 15 10 0 0 = (15, 10, false) := by
  norm_num [effectiveSize]

/-- C4 amended: an item with unknown (0×0) pixel dimensions is treated
as portrait-leaning (`0 > 0` is false), not as aspect 1:1 — under
`auto` its slot is swapped and flagged rotated exactly when the natural
slot is landscape (`tw > th`), and left alone otherwise. -/
theorem C4_unknown_dims_amended (tw th : ℚ) :
    effectiveSize .auto tw th 0 0 =
      if th < tw then (th, tw, true) else (tw, th, false) := by
  by_cases h : th < tw
  · simp [effectiveSize, h, lt_irrefl]
  · simp [effectiveSize, h, lt_irrefl]

/-! ### C5: flipping both slot and source -/

/-- C5 counterexample: the claim says the rotation decision always
changes when both the slot's and the source's width/height are flipped;
at slot 2×1 and source 1×2 both decisions are `true`, so they do not
differ. -/
theorem C5_rotation_flip_counterexample :
    ¬ (shouldRotate 2 1 1 2 ≠ shouldRotate 1 2 2 1) := by
  norm_num [shouldRotate]

/-- C5 amended: for positive slot and source dimensions, flipping both
the slot's and the source's width/height leaves the rotation-to-fit
decision unchanged — the two mismatch cases swap places. -/
theorem C5_rotation_flip_amended (slotW slotH imgW imgH : ℚ)
    (h1 : 0 < slotW) (h2 : 0 < slotH) (h3 : 0 < imgW) (h4 : 0 < imgH) :
    shouldRotate slotW slotH imgW imgH = shouldRotate slotH slotW imgH imgW := by
  have key : ∀ (a b : ℚ), 0 < a → 0 < b → (a / b > 1 ↔ b / a < 1) := by
    intro a b ha hb
    rw [gt_iff_lt, one_lt_div hb, div_lt_one ha]
  simp only [shouldRotate]
  rw [decide_eq_decide.mpr (key slotH slotW h2 h1),
    decide_eq_decide.mpr (key imgH imgW h4 h3),
    decide_eq_decide.mpr ((key slotW slotH h1 h2).symm),
    decide_eq_decide.mpr ((key imgW imgH h3 h4).symm)]
  exact Bool.or_comm _ _

/-- Witness for C5's amended theorem at slot 2×1, source 1×2. -/
theorem C5_rotation_flip_witness :
    (0 : ℚ) < 2 ∧ (0 : ℚ) < 1 ∧
    shouldRotate 2 1 1 2 = shouldRotate 1 2 2 1 :=
  ⟨by norm_num, by norm_num,
   C5_rotation_flip_amended 2 1 1 2 (by norm_num) (by norm_num)
     (by norm_num) (by norm_num)⟩

/-! ### C6 and C7: crop/fit geometry -/

lemma computeFit_cover_gt (imgW imgH drawX drawY drawW drawH : ℚ) (rot : Bool)
    (h : (if rot then imgH / imgW else imgW / imgH) > drawW / drawH) :
    computeFit .cover imgW imgH rot drawX drawY drawW drawH =
      ⟨some ((imgW - imgH * (drawW / drawH)) / 2, 0, imgH * (drawW / drawH), imgH),
       (drawX, drawY, drawW, drawH)⟩ := by
  simp only [computeFit]
  rw [if_pos h]

lemma computeFit_cover_le (imgW imgH drawX drawY drawW drawH : ℚ) (rot : Bool)
    (h : ¬ (if rot then imgH / imgW else imgW / imgH) > drawW / drawH) :
    computeFit .cover imgW imgH rot drawX drawY drawW drawH =
      ⟨some (0, (imgH - imgW / (drawW / drawH)) * (35 / 100), imgW,
        imgW / (drawW / drawH)),
       (drawX, drawY, drawW, drawH)⟩ := by
  simp only [computeFit]
  rw [if_neg h]

lemma computeFit_contain_gt (imgW imgH drawX drawY drawW drawH : ℚ) (rot : Bool)
    (h : (if rot then imgH / imgW else imgW / imgH) > drawW / drawH) :
    computeFit .contain imgW imgH rot drawX drawY drawW drawH =
      ⟨none,
       (drawX,
        drawY + (drawH - drawW / (if rot then imgH / imgW else imgW / imgH)) / 2,
        drawW,
        drawW / (if rot then imgH / imgW else imgW / imgH))⟩ := by
  simp only [computeFit]
  rw [if_pos h]

lemma computeFit_contain_le (imgW imgH drawX drawY drawW drawH : ℚ) (rot : Bool)
    (h : ¬ (if rot then imgH / imgW else imgW / imgH) > drawW / drawH) :
    computeFit .contain imgW imgH rot drawX drawY drawW drawH =
      ⟨none,
       (drawX + (drawW - drawH * (if rot then imgH / imgW else imgW / imgH)) / 2,
        drawY,
        drawH * (if rot then imgH / imgW else imgW / imgH),
        drawH)⟩ := by
  simp only [computeFit]
  rw [if_neg h]

/-- The effective source aspect ratio is positive for positive pixel
dimensions. -/
lemma effAspect_pos (imgW imgH : ℚ) (rot : Bool)
    (hiw : 0 < imgW) (hih : 0 < imgH) :
    0 < (if rot then imgH / imgW else imgW / imgH) := by
  cases rot
  · simpa using div_pos hiw hih
  · simpa using div_pos hih hiw

/-- C6: in `cover` mode, for positive source and destination dimensions,
the crop rectangle's aspect ratio equals the destination aspect ratio
exactly; when the effective source aspect exceeds the destination aspect
the crop keeps full source height with width `imgH · destAspect`
centered horizontally, and otherwise it keeps full source width with
height `imgW / destAspect` and the top-weighted bias
`cropY = (imgH − croppedHeight) · 0.35`.  The destination rectangle is
the full usable rectangle. -/
theorem C6_cover_crop (imgW imgH drawX drawY drawW drawH : ℚ) (rot : Bool)
    (hiw : 0 < imgW) (hih : 0 < imgH) (hdw : 0 < drawW) (hdh : 0 < drawH) :
    ∃ sx sy sw sh,
      (computeFit .cover imgW imgH rot drawX drawY drawW drawH).crop =
        some (sx, sy, sw, sh) ∧
      (computeFit .cover imgW imgH rot drawX drawY drawW drawH).dest =
        (drawX, drawY, drawW, drawH) ∧
      sw / sh = drawW / drawH ∧
      (if (if rot then imgH / imgW else imgW / imgH) > drawW / drawH then
        sh = imgH ∧ sw = imgH * (drawW / drawH) ∧ sx = (imgW - sw) / 2 ∧ sy = 0
      else
        sw = imgW ∧ sh = imgW / (drawW / drawH) ∧
          sy = (imgH - sh) * (35 / 100) ∧ sx = 0) := by
  have htA : 0 < drawW / drawH := div_pos hdw hdh
  by_cases hgt : (if rot then imgH / imgW else imgW / imgH) > drawW / drawH
  · refine ⟨(imgW - imgH * (drawW / drawH)) / 2, 0, imgH * (drawW / drawH), imgH,
      ?_, ?_, ?_, ?_⟩
    · rw [computeFit_cover_gt imgW imgH drawX drawY drawW drawH rot hgt]
    · rw [computeFit_cover_gt imgW imgH drawX drawY drawW drawH rot hgt]
    · rw [mul_comm, mul_div_assoc, div_self (ne_of_gt hih), mul_one]
    · rw [if_pos hgt]
      exact ⟨rfl, rfl, rfl, rfl⟩
  · refine ⟨0, (imgH - imgW / (drawW / drawH)) * (35 / 100), imgW,
      imgW / (drawW / drawH), ?_, ?_, ?_, ?_⟩
    · rw [computeFit_cover_le imgW imgH drawX drawY drawW drawH rot hgt]
    · rw [computeFit_cover_le imgW imgH drawX drawY drawW drawH rot hgt]
    · rw [div_div_eq_mul_div, mul_comm, mul_div_assoc,
        div_self (ne_of_gt hiw), mul_one]
    · rw [if_neg hgt]
      exact ⟨rfl, rfl, rfl, rfl⟩

/-- Witness for C6 at a 4000×3000 source, unrotated, destination 10×15. -/
theorem C6_cover_crop_witness :
    (0 : ℚ) < 4000 ∧ (0 : ℚ) < 3000 ∧ (0 : ℚ) < 10 ∧ (0 : ℚ) < 15 ∧
    (∃ sx sy sw sh,
      (computeFit .cover 4000 3000 false 0 0 10 15).crop =
        some (sx, sy, sw, sh) ∧
      (computeFit .cover 4000 3000 false 0 0 10 15).dest = (0, 0, 10, 15) ∧
      sw / sh = (10 : ℚ) / 15 ∧
      (if (if false then (3000 : ℚ) / 4000 else (4000 : ℚ) / 3000) > (10 : ℚ) / 15 then
        sh = 3000 ∧ sw = 3000 * ((10 : ℚ) / 15) ∧ sx = (4000 - sw) / 2 ∧ sy = 0
      else
        sw = 4000 ∧ sh = 4000 / ((10 : ℚ) / 15) ∧
          sy = (3000 - sh) * (35 / 100) ∧ sx = 0)) :=
  ⟨by norm_num, by norm_num, by norm_num, by norm_num,
   C6_cover_crop 4000 3000 0 0 10 15 false (by norm_num) (by norm_num)
     (by norm_num) (by norm_num)⟩

/-- C7: in `contain` mode, for positive source and destination
dimensions, no source crop is produced, the scaled rectangle's aspect
ratio equals the effective source aspect ratio, the scaled rectangle
lies within the usable rectangle, and it is centered along the slack
axis — vertically when the source is wider than the destination,
horizontally otherwise. -/
theorem C7_contain_fit (imgW imgH drawX drawY drawW drawH : ℚ) (rot : Bool)
    (hiw : 0 < imgW) (hih : 0 < imgH) (hdw : 0 < drawW) (hdh : 0 < drawH) :
    (computeFit .contain imgW imgH rot drawX drawY drawW drawH).crop = none ∧
    (∃ fx fy fw fh,
      (computeFit .contain imgW imgH rot drawX drawY drawW drawH).dest =
        (fx, fy, fw, fh) ∧
      fw / fh = (if rot then imgH / imgW else imgW / imgH) ∧
      drawX ≤ fx ∧ fx + fw ≤ drawX + drawW ∧
      drawY ≤ fy ∧ fy + fh ≤ drawY + drawH ∧
      (if (if rot then imgH / imgW else imgW / imgH) > drawW / drawH then
        fx = drawX ∧ fw = drawW ∧ fy - drawY = (drawY + drawH) - (fy + fh)
      else
        fy = drawY ∧ fh = drawH ∧ fx - drawX = (drawX + drawW) - (fx + fw))) := by
  have htA : 0 < drawW / drawH := div_pos hdw hdh
  have hcia : 0 < (if rot then imgH / imgW else imgW / imgH) :=
    effAspect_pos imgW imgH rot hiw hih
  by_cases hgt : (if rot then imgH / imgW else imgW / imgH) > drawW / drawH
  · constructor
    · rw [computeFit_contain_gt imgW imgH drawX drawY drawW drawH rot hgt]
    · refine ⟨drawX,
        drawY + (drawH - drawW / (if rot then imgH / imgW else imgW / imgH)) / 2,
        drawW, drawW / (if rot then imgH / imgW else imgW / imgH),
        ?_, ?_, ?_, ?_, ?_, ?_, ?_⟩
      · rw [computeFit_contain_gt imgW imgH drawX drawY drawW drawH rot hgt]
      · rw [div_div_eq_mul_div, mul_comm, mul_div_assoc,
          div_self (ne_of_gt hdw), mul_one]
      · exact le_refl drawX
      · linarith
      · have hfh : drawW / (if rot then imgH / imgW else imgW / imgH) ≤ drawH := by
          have h1 : drawW / (if rot then imgH / imgW else imgW / imgH) <
              drawW / (drawW / drawH) := div_lt_div_of_pos_left hdw htA hgt
          have h2 : drawW / (drawW / drawH) = drawH := by
            rw [div_div_eq_mul_div, mul_comm, mul_div_assoc,
              div_self (ne_of_gt hdw), mul_one]
          linarith
        linarith
      · have hfh : drawW / (if rot then imgH / imgW else imgW / imgH) ≤ drawH := by
          have h1 : drawW / (if rot then imgH / imgW else imgW / imgH) <
              drawW / (drawW / drawH) := div_lt_div_of_pos_left hdw htA hgt
          have h2 : drawW / (drawW / drawH) = drawH := by
            rw [div_div_eq_mul_div, mul_comm, mul_div_assoc,
              div_self (ne_of_gt hdw), mul_one]
          linarith
        linarith
      · rw [if_pos hgt]
        exact ⟨rfl, rfl, by ring⟩
  · constructor
    · rw [computeFit_contain_le imgW imgH drawX drawY drawW drawH rot hgt]
    · have hfw : drawH * (if rot then imgH / imgW else imgW / imgH) ≤ drawW := by
        have h1 : drawH * (if rot then imgH / imgW else imgW / imgH) ≤
            drawH * (drawW / drawH) :=
          mul_le_mul_of_nonneg_left (not_lt.mp hgt) (le_of_lt hdh)
        have h2 : drawH * (drawW / drawH) = drawW := by
          rw [mul_comm, div_mul_cancel₀ _ (ne_of_gt hdh)]
        linarith
      refine ⟨drawX + (drawW - drawH * (if rot then imgH / imgW else imgW / imgH)) / 2,
        drawY, drawH * (if rot then imgH / imgW else imgW / imgH), drawH,
        ?_, ?_, ?_, ?_, ?_, ?_, ?_⟩
      · rw [computeFit_contain_le imgW imgH drawX drawY drawW drawH rot hgt]
      · rw [mul_comm, mul_div_assoc, div_self (ne_of_gt hdh), mul_one]
      · linarith
      · linarith
      · exact le_refl drawY
      · linarith
      · rw [if_neg hgt]
        exact ⟨rfl, rfl, by ring⟩

/-- Witness for C7 at a 4000×3000 source, unrotated, usable rectangle
at (1, 2) of size 10×15. -/
theorem C7_contain_fit_witness :
    (0 : ℚ) < 4000 ∧ (0 : ℚ) < 3000 ∧ (0 : ℚ) < 10 ∧ (0 : ℚ) < 15 ∧
    ((computeFit .contain 4000 3000 false 1 2 10 15).crop = none ∧
    (∃ fx fy fw fh,
      (computeFit .contain 4000 3000 false 1 2 10 15).dest = (fx, fy, fw, fh) ∧
      fw / fh = (if false then (3000 : ℚ) / 4000 else (4000 : ℚ) / 3000) ∧
      (1 : ℚ) ≤ fx ∧ fx + fw ≤ 1 + 10 ∧
      (2 : ℚ) ≤ fy ∧ fy + fh ≤ 2 + 15 ∧
      (if (if false then (3000 : ℚ) / 4000 else (4000 : ℚ) / 3000) > (10 : ℚ) / 15 then
        fx = 1 ∧ fw = 10 ∧ fy - 2 = (2 + 15) - (fy + fh)
      else
        fy = 2 ∧ fh = 15 ∧ fx - 1 = (1 + 10) - (fx + fw)))) :=
  ⟨by norm_num, by norm_num, by norm_num, by norm_num,
   C7_contain_fit 4000 3000 1 2 10 15 false (by norm_num) (by norm_num)
     (by norm_num) (by norm_num)⟩

/-! ### List min/max facts for the centering pass -/

lemma foldl_min_le_init (as : List ℚ) (a : ℚ) : as.foldl min a ≤ a := by
  induction as generalizing a with
  | nil => exact le_refl a
  | cons b bs ih => exact le_trans (ih (min a b)) (min_le_left a b)

lemma foldl_min_le_mem (as : List ℚ) (a x : ℚ) (hx : x ∈ as) :
    as.foldl min a ≤ x := by
  induction as generalizing a with
  | nil => cases hx
  | cons b bs ih =>
    rcases List.mem_cons.mp hx with h | h
    · subst h
      exact le_trans (foldl_min_le_init bs (min a x)) (min_le_right a x)
    · exact ih (min a b) h

lemma le_foldl_min (as : List ℚ) (a m : ℚ) (ha : m ≤ a)
    (h : ∀ x ∈ as, m ≤ x) : m ≤ as.foldl min a := by
  induction as generalizing a with
  | nil => exact ha
  | cons b bs ih =>
    exact ih (min a b) (le_min ha (h b (List.mem_cons_self b bs)))
      (fun x hx => h x (List.mem_cons_of_mem b hx))

lemma init_le_foldl_max (as : List ℚ) (a : ℚ) : a ≤ as.foldl max a := by
  induction as generalizing a with
  | nil => exact le_refl a
  | cons b bs ih => exact le_trans (le_max_left a b) (ih (max a b))

lemma mem_le_foldl_max (as : List ℚ) (a x : ℚ) (hx : x ∈ as) :
    x ≤ as.foldl max a := by
  induction as generalizing a with
  | nil => cases hx
  | cons b bs ih =>
    rcases List.mem_cons.mp hx with h | h
    · subst h
      exact le_trans (le_max_right a x) (init_le_foldl_max bs (max a x))
    · exact ih (max a b) h

lemma foldl_max_le (as : List ℚ) (a m : ℚ) (ha : a ≤ m)
    (h : ∀ x ∈ as, x ≤ m) : as.foldl max a ≤ m := by
  induction as generalizing a with
  | nil => exact ha
  | cons b bs ih =>
    exact ih (max a b) (max_le ha (h b (List.mem_cons_self b bs)))
      (fun x hx => h x (List.mem_cons_of_mem b hx))

lemma listMin_le {l : List ℚ} {x : ℚ} (hx : x ∈ l) : listMin l ≤ x := by
  cases l with
  | nil => cases hx
  | cons a as =>
    rcases List.mem_cons.mp hx with h | h
    · subst h
      exact foldl_min_le_init as x
    · exact foldl_min_le_mem as a x h

lemma le_listMin {l : List ℚ} (hne : l ≠ []) {m : ℚ}
    (h : ∀ x ∈ l, m ≤ x) : m ≤ listMin l := by
  cases l with
  | nil => cases hne rfl
  | cons a as =>
    exact le_foldl_min as a m (h a (List.mem_cons_self a as))
      (fun x hx => h x (List.mem_cons_of_mem a hx))

lemma le_listMax {l : List ℚ} {x : ℚ} (hx : x ∈ l) : x ≤ listMax l := by
  cases l with
  | nil => cases hx
  | cons a as =>
    rcases List.mem_cons.mp hx with h | h
    · subst h
      exact init_le_foldl_max as x
    · exact mem_le_foldl_max as a x h

lemma listMax_le {l : List ℚ} (hne : l ≠ []) {m : ℚ}
    (h : ∀ x ∈ l, x ≤ m) : listMax l ≤ m := by
  cases l with
  | nil => cases hne rfl
  | cons a as =>
    exact foldl_max_le as a m (h a (List.mem_cons_self a as))
      (fun x hx => h x (List.mem_cons_of_mem a hx))

lemma foldl_min_map_add (as : List ℚ) (a c : ℚ) :
    (as.map (fun x => x + c)).foldl min (a + c) = as.foldl min a + c := by
  induction as generalizing a with
  | nil => rfl
  | cons b bs ih =>
    simp only [List.map_cons, List.foldl_cons, min_add_add_right]
    exact ih (min a b)

lemma foldl_max_map_add (as : List ℚ) (a c : ℚ) :
    (as.map (fun x => x + c)).foldl max (a + c) = as.foldl max a + c := by
  induction as generalizing a with
  | nil => rfl
  | cons b bs ih =>
    simp only [List.map_cons, List.foldl_cons, max_add_add_right]
    exact ih (max a b)

lemma listMin_map_add {l : List ℚ} (hne : l ≠ []) (c : ℚ) :
    listMin (l.map (fun x => x + c)) = listMin l + c := by
  cases l with
  | nil => cases hne rfl
  | cons a as => simpa [listMin] using foldl_min_map_add as a c

lemma listMax_map_add {l : List ℚ} (hne : l ≠ []) (c : ℚ) :
    listMax (l.map (fun x => x + c)) = listMax l + c := by
  cases l with
  | nil => cases hne rfl
  | cons a as => simpa [listMax] using foldl_max_map_add as a c

/-- Shifting every item of a page by `c` shifts `minX` by `c`. -/
lemma minX_map_shift (L : List PlacedItem) (hne : L ≠ []) (c : ℚ) :
    minX (L.map (fun it => { it with x := it.x + c })) = minX L + c := by
  unfold minX
  rw [List.map_map]
  have hne' : L.map (fun it => it.x) ≠ [] := by
    simpa using hne
  have hfun : ((fun it => it.x) ∘
      (fun it : PlacedItem => { it with x := it.x + c })) =
      (fun x => x + c) ∘ (fun it : PlacedItem => it.x) := by
    funext it
    rfl
  rw [hfun, ← List.map_map]
  exact listMin_map_add hne' c

/-- Shifting every item of a page by `c` shifts `maxX` by `c`. -/
lemma maxXW_map_shift (L : List PlacedItem) (hne : L ≠ []) (c : ℚ) :
    maxXW (L.map (fun it => { it with x := it.x + c })) = maxXW L + c := by
  unfold maxXW
  rw [List.map_map]
  have hne' : L.map (fun it => it.x + it.w) ≠ [] := by
    simpa using hne
  have hfun : ((fun it => it.x + it.w) ∘
      (fun it : PlacedItem => { it with x := it.x + c })) =
      (fun x => x + c) ∘ (fun it : PlacedItem => it.x + it.w) := by
    funext it
    show it.x + c + it.w = it.x + it.w + c
    ring
  rw [hfun, ← List.map_map]
  exact listMax_map_add hne' c

/-! ### C8: the horizontal centering pass -/

/-- C8: on any non-empty page the centering pass shifts every item by
the same offset `(pageWidth − contentWidth)/2 − minX`, leaving `y`,
`w`, `h` and the rotated flag untouched, and afterwards the least left
edge and the greatest right edge sum to `pageWidth` — i.e. they are
symmetric about `pageWidth / 2`. -/
theorem C8_centering (L : List PlacedItem) (hne : L ≠ []) :
    (centerPage ⟨L⟩).images =
      L.map (fun it =>
        { it with x := it.x + ((A4_WIDTH_CM - (maxXW L - minX L)) / 2 - minX L) }) ∧
    minX (centerPage ⟨L⟩).images + maxXW (centerPage ⟨L⟩).images = A4_WIDTH_CM := by
  have himg : (centerPage ⟨L⟩).images =
      L.map (fun it =>
        { it with x := it.x + ((A4_WIDTH_CM - (maxXW L - minX L)) / 2 - minX L) }) := by
    unfold centerPage
    rw [if_neg (by simpa using hne)]
  refine ⟨himg, ?_⟩
  rw [himg, minX_map_shift L hne _, maxXW_map_shift L hne _]
  ring

/-- Witness for C8 at a one-item page. -/
theorem C8_centering_witness :
    ([⟨⟨"a", 1, 0, 0⟩, 3 / 10, 3 / 10, 10, 15, false⟩] : List PlacedItem) ≠ [] ∧
    ((centerPage ⟨[⟨⟨"a", 1, 0, 0⟩, 3 / 10, 3 / 10, 10, 15, false⟩]⟩).images =
      ([⟨⟨"a", 1, 0, 0⟩, 3 / 10, 3 / 10, 10, 15, false⟩] : List PlacedItem).map
        (fun it =>
          { it with x := it.x +
            ((A4_WIDTH_CM -
              (maxXW [⟨⟨"a", 1, 0, 0⟩, 3 / 10, 3 / 10, 10, 15, false⟩] -
               minX [⟨⟨"a", 1, 0, 0⟩, 3 / 10, 3 / 10, 10, 15, false⟩])) / 2 -
             minX [⟨⟨"a", 1, 0, 0⟩, 3 / 10, 3 / 10, 10, 15, false⟩]) }) ∧
    minX (centerPage ⟨[⟨⟨"a", 1, 0, 0⟩, 3 / 10, 3 / 10, 10, 15, false⟩]⟩).images +
      maxXW (centerPage ⟨[⟨⟨"a", 1, 0, 0⟩, 3 / 10, 3 / 10, 10, 15, false⟩]⟩).images =
      A4_WIDTH_CM) :=
  ⟨by simp,
   C8_centering [⟨⟨"a", 1, 0, 0⟩, 3 / 10, 3 / 10, 10, 15, false⟩] (by simp)⟩

/-! ### C2: no copy dropped, duplicated, or reordered -/

/-- The sealed pages' items followed by the current page's items, in
placement order — the quantity one packing step extends by exactly the
item just consumed. -/
def placedSoFar (st : LayoutState) : List PlacedItem :=
  (st.pages.map Page.images).flatten ++ st.currentImages

lemma placeOne_placedSoFar (s : PrintSettings) (tw th : ℚ)
    (st : LayoutState) (img : ImageFile) :
    (placedSoFar (placeOne s tw th st img)).map PlacedItem.img =
      (placedSoFar st).map PlacedItem.img ++ [img] := by
  unfold placeOne placedSoFar
  by_cases hbr :
      (if st.currentX + (effectiveSize s.orientation tw th img.width img.height).1 >
          A4_WIDTH_CM - s.margin + EPS then
        st.currentY + st.rowHeight + s.spacing
      else st.currentY) +
        (effectiveSize s.orientation tw th img.width img.height).2.1 >
        A4_HEIGHT_CM - s.margin + EPS
  · simp [hbr]
  · simp [hbr]

lemma foldl_placedSoFar (s : PrintSettings) (tw th : ℚ)
    (items : List ImageFile) (st : LayoutState) :
    (placedSoFar (items.foldl (placeOne s tw th) st)).map PlacedItem.img =
      (placedSoFar st).map PlacedItem.img ++ items := by
  induction items generalizing st with
  | nil => simp
  | cons a as ih =>
    simp only [List.foldl_cons]
    rw [ih (placeOne s tw th st a), placeOne_placedSoFar]
    simp

/-- Before centering, the pages' items in order are exactly the expanded
copy list. -/
lemma rawPages_items (images : List ImageFile) (s : PrintSettings) :
    (((rawPages images s).map Page.images).flatten).map PlacedItem.img =
      allItemsToPrint images := by
  have hkey : (placedSoFar (packItems images s)).map PlacedItem.img =
      allItemsToPrint images := by
    unfold packItems
    rw [foldl_placedSoFar]
    simp [placedSoFar, initState]
  unfold placedSoFar at hkey
  rw [List.map_append] at hkey
  simp only [rawPages]
  by_cases h : 0 < (packItems images s).currentImages.length
  · rw [if_pos h]
    simp only [List.map_append, List.flatten_append, List.map_cons,
      List.map_nil, List.flatten_cons, List.flatten_nil, List.append_nil]
    exact hkey
  · rw [if_neg h]
    have hcur : (packItems images s).currentImages = [] := by
      cases hc : (packItems images s).currentImages with
      | nil => rfl
      | cons a as =>
        exact absurd (by rw [hc]; simp) h
    rw [hcur] at hkey
    simpa using hkey

/-- Centering keeps each page's item count and source references. -/
lemma centerPage_img_map (p : Page) :
    (centerPage p).images.map PlacedItem.img = p.images.map PlacedItem.img := by
  unfold centerPage
  by_cases h : p.images = []
  · rw [if_pos h]
  · rw [if_neg h]
    simp [List.map_map]

/-- C2: the placed items of the final layout, page by page and in order,
reference exactly the expanded copy list — every copy of every source
item yields one placed item, none dropped, none duplicated, copies of
earlier items before copies of later ones; in particular the total
placed count is the sum of the copy counts. -/
theorem C2_conservation (images : List ImageFile) (s : PrintSettings) :
    ((calculateLayout images s).map Page.images).flatten.map PlacedItem.img =
      allItemsToPrint images ∧
    ((calculateLayout images s).map (fun p => p.images.length)).sum =
      (images.map (fun img => img.copies)).sum := by
  have hflat : ((calculateLayout images s).map Page.images).flatten.map PlacedItem.img =
      (((rawPages images s).map Page.images).flatten).map PlacedItem.img := by
    unfold calculateLayout
    induction rawPages images s with
    | nil => rfl
    | cons p ps ih =>
      simp only [List.map_cons, List.flatten_cons, List.map_append]
      rw [ih, centerPage_img_map]
  have hitems := rawPages_items images s
  constructor
  · rw [hflat, hitems]
  · have hlen : ((calculateLayout images s).map (fun p => p.images.length)).sum =
        (((calculateLayout images s).map Page.images).flatten).length := by
      rw [List.length_flatten, List.map_map]
      rfl
    rw [hlen]
    have : (((calculateLayout images s).map Page.images).flatten).length =
        ((((calculateLayout images s).map Page.images).flatten).map PlacedItem.img).length := by
      rw [List.length_map]
    rw [this, hflat, hitems]
    unfold allItemsToPrint
    rw [List.length_flatten, List.map_map]
    have hcomp : (List.length ∘ fun img : ImageFile => List.replicate img.copies img) =
        fun img : ImageFile => img.copies := by
      funext img
      simp
    rw [hcomp]

/-! ### C1: in-bounds and non-overlap invariants of the packing loop -/

/-- A placed item lies in the printable area before centering: `x` is at
least `margin` exactly, the right edge respects the epsilon-tolerant
check, and likewise vertically. -/
def rectInPage (m : ℚ) (it : PlacedItem) : Prop :=
  m ≤ it.x ∧ it.x + it.w ≤ A4_WIDTH_CM - m + EPS ∧
  m ≤ it.y ∧ it.y + it.h ≤ A4_HEIGHT_CM - m + EPS

/-- A placed item lies within `[margin, pageDimension − margin]` on both
axes up to the 0.001 cm epsilon — the tolerance the claim allows after
the centering pass. -/
def rectInPageEps (m : ℚ) (it : PlacedItem) : Prop :=
  m - EPS ≤ it.x ∧ it.x + it.w ≤ A4_WIDTH_CM - m + EPS ∧
  m - EPS ≤ it.y ∧ it.y + it.h ≤ A4_HEIGHT_CM - m + EPS

/-- Two placed rectangles overlap when their interiors intersect. -/
def overlaps (a b : PlacedItem) : Prop :=
  a.x < b.x + b.w ∧ b.x < a.x + a.w ∧ a.y < b.y + b.h ∧ b.y < a.y + a.h

/-- A page is well-formed before centering: every item in the printable
area and no two items overlapping. -/
def PageOk (m : ℚ) (L : List PlacedItem) : Prop :=
  (∀ it ∈ L, rectInPage m it) ∧ L.Pairwise (fun a b => ¬ overlaps a b)

/-- Relation between an already-placed item and the cursor: the item
ends above the current row's bottom, and it is either strictly above the
cursor row or sits in the cursor row entirely to the left of the
cursor. -/
def ItemInv (cx cy rh : ℚ) (it : PlacedItem) : Prop :=
  it.y + it.h ≤ cy + rh ∧
  (it.y + it.h ≤ cy ∨ (it.y = cy ∧ it.x + it.w ≤ cx))

/-- The packing loop invariant: sealed pages are well-formed, the
current page is well-formed, every current item respects the cursor,
and the cursor is at least at the margin. -/
def StInv (m : ℚ) (st : LayoutState) : Prop :=
  (∀ p ∈ st.pages, PageOk m p.images) ∧
  PageOk m st.currentImages ∧
  (∀ it ∈ st.currentImages, ItemInv st.currentX st.currentY st.rowHeight it) ∧
  m ≤ st.currentX ∧ m ≤ st.currentY ∧ 0 ≤ st.rowHeight

lemma EPS_pos : 0 < EPS := by norm_num [EPS]

lemma placeOne_caseA (s : PrintSettings) (tw th : ℚ) (st : LayoutState)
    (img : ImageFile)
    (hwr : ¬ st.currentX + (effectiveSize s.orientation tw th img.width img.height).1 >
      A4_WIDTH_CM - s.margin + EPS)
    (hbr : ¬ st.currentY + (effectiveSize s.orientation tw th img.width img.height).2.1 >
      A4_HEIGHT_CM - s.margin + EPS) :
    placeOne s tw th st img =
      ⟨st.pages,
       st.currentImages ++ [⟨img, st.currentX, st.currentY,
         (effectiveSize s.orientation tw th img.width img.height).1,
         (effectiveSize s.orientation tw th img.width img.height).2.1,
         (effectiveSize s.orientation tw th img.width img.height).2.2⟩],
       st.currentX + (effectiveSize s.orientation tw th img.width img.height).1 + s.spacing,
       st.currentY,
       max st.rowHeight (effectiveSize s.orientation tw th img.width img.height).2.1⟩ := by
  simp only [placeOne, if_neg hwr]
  rw [if_neg hbr]

lemma placeOne_caseB (s : PrintSettings) (tw th : ℚ) (st : LayoutState)
    (img : ImageFile)
    (hwr : st.currentX + (effectiveSize s.orientation tw th img.width img.height).1 >
      A4_WIDTH_CM - s.margin + EPS)
    (hbr : ¬ st.currentY + st.rowHeight + s.spacing +
      (effectiveSize s.orientation tw th img.width img.height).2.1 >
      A4_HEIGHT_CM - s.margin + EPS) :
    placeOne s tw th st img =
      ⟨st.pages,
       st.currentImages ++ [⟨img, s.margin, st.currentY + st.rowHeight + s.spacing,
         (effectiveSize s.orientation tw th img.width img.height).1,
         (effectiveSize s.orientation tw th img.width img.height).2.1,
         (effectiveSize s.orientation tw th img.width img.height).2.2⟩],
       s.margin + (effectiveSize s.orientation tw th img.width img.height).1 + s.spacing,
       st.currentY + st.rowHeight + s.spacing,
       max 0 (effectiveSize s.orientation tw th img.width img.height).2.1⟩ := by
  simp only [placeOne, if_pos hwr]
  rw [if_neg hbr]

lemma placeOne_caseC (s : PrintSettings) (tw th : ℚ) (st : LayoutState)
    (img : ImageFile)
    (hbr : (if st.currentX + (effectiveSize s.orientation tw th img.width img.height).1 >
        A4_WIDTH_CM - s.margin + EPS
      then st.currentY + st.rowHeight + s.spacing
      else st.currentY) +
      (effectiveSize s.orientation tw th img.width img.height).2.1 >
      A4_HEIGHT_CM - s.margin + EPS) :
    placeOne s tw th st img =
      ⟨st.pages ++ [⟨st.currentImages⟩],
       [⟨img, s.margin, s.margin,
         (effectiveSize s.orientation tw th img.width img.height).1,
         (effectiveSize s.orientation tw th img.width img.height).2.1,
         (effectiveSize s.orientation tw th img.width img.height).2.2⟩],
       s.margin + (effectiveSize s.orientation tw th img.width img.height).1 + s.spacing,
       s.margin,
       max 0 (effectiveSize s.orientation tw th img.width img.height).2.1⟩ := by
  simp only [placeOne]
  rw [if_pos hbr]

/-- One packing step preserves the loop invariant, provided the item's
effective slot fits the printable area and margin/spacing are
non-negative. -/
lemma placeOne_StInv (s : PrintSettings) (tw th : ℚ) (st : LayoutState)
    (img : ImageFile) (hm : 0 ≤ s.margin) (hsp : 0 ≤ s.spacing)
    (hw0 : 0 ≤ (effectiveSize s.orientation tw th img.width img.height).1)
    (hwle : (effectiveSize s.orientation tw th img.width img.height).1 ≤
      A4_WIDTH_CM - 2 * s.margin)
    (hh0 : 0 ≤ (effectiveSize s.orientation tw th img.width img.height).2.1)
    (hhle : (effectiveSize s.orientation tw th img.width img.height).2.1 ≤
      A4_HEIGHT_CM - 2 * s.margin)
    (hst : StInv s.margin st) :
    StInv s.margin (placeOne s tw th st img) := by
  obtain ⟨hpages, ⟨hcurIn, hcurPw⟩, hitem, hcx, hcy, hrh⟩ := hst
  have heps : 0 < EPS := EPS_pos
  set w := (effectiveSize s.orientation tw th img.width img.height).1 with hwdef
  set h := (effectiveSize s.orientation tw th img.width img.height).2.1 with hhdef
  by_cases hbr : (if st.currentX + w > A4_WIDTH_CM - s.margin + EPS
      then st.currentY + st.rowHeight + s.spacing
      else st.currentY) + h > A4_HEIGHT_CM - s.margin + EPS
  · -- page break: seal the current page, place at (margin, margin)
    rw [placeOne_caseC s tw th st img hbr]
    refine ⟨?_, ⟨?_, ?_⟩, ?_, ?_, ?_, ?_⟩
    · intro p hp
      rcases List.mem_append.mp hp with hp | hp
      · exact hpages p hp
      · rw [List.mem_singleton.mp hp]
        exact ⟨hcurIn, hcurPw⟩
    · intro it hit
      rw [List.mem_singleton.mp hit]
      refine ⟨le_refl _, ?_, le_refl _, ?_⟩
      · show s.margin + w ≤ A4_WIDTH_CM - s.margin + EPS
        linarith
      · show s.margin + h ≤ A4_HEIGHT_CM - s.margin + EPS
        linarith
    · exact List.pairwise_singleton _ _
    · intro it hit
      rw [List.mem_singleton.mp hit]
      refine ⟨?_, Or.inr ⟨rfl, ?_⟩⟩
      · show s.margin + h ≤ s.margin + max 0 h
        have := le_max_right (0 : ℚ) h
        linarith
      · show s.margin + w ≤ s.margin + w + s.spacing
        linarith
    · show s.margin ≤ s.margin + w + s.spacing
      linarith
    · exact le_refl s.margin
    · show (0 : ℚ) ≤ max 0 h
      exact le_max_left _ _
  · by_cases hwr : st.currentX + w > A4_WIDTH_CM - s.margin + EPS
    · -- row wrap, no page break
      rw [if_pos hwr] at hbr
      rw [placeOne_caseB s tw th st img hwr hbr]
      refine ⟨?_, ⟨?_, ?_⟩, ?_, ?_, ?_, ?_⟩
      · exact hpages
      · intro it hit
        rcases List.mem_append.mp hit with hit | hit
        · exact hcurIn it hit
        · rw [List.mem_singleton.mp hit]
          refine ⟨le_refl _, ?_, ?_, ?_⟩
          · show s.margin + w ≤ A4_WIDTH_CM - s.margin + EPS
            linarith
          · show s.margin ≤ st.currentY + st.rowHeight + s.spacing
            linarith
          · show st.currentY + st.rowHeight + s.spacing + h ≤
              A4_HEIGHT_CM - s.margin + EPS
            exact not_lt.mp hbr
      · rw [List.pairwise_append]
        refine ⟨hcurPw, List.pairwise_singleton _ _, ?_⟩
        intro a ha b hb
        rw [List.mem_singleton.mp hb]
        intro hov
        obtain ⟨h1, h2, h3, h4⟩ := hov
        obtain ⟨hrow, hdisj⟩ := hitem a ha
        have h4' : st.currentY + st.rowHeight + s.spacing < a.y + a.h := h4
        linarith
      · intro it hit
        rcases List.mem_append.mp hit with hit | hit
        · obtain ⟨hrow, hdisj⟩ := hitem it hit
          refine ⟨?_, Or.inl ?_⟩
          · show it.y + it.h ≤ st.currentY + st.rowHeight + s.spacing + max 0 h
            have := le_max_left (0 : ℚ) h
            linarith
          · show it.y + it.h ≤ st.currentY + st.rowHeight + s.spacing
            linarith
        · rw [List.mem_singleton.mp hit]
          refine ⟨?_, Or.inr ⟨rfl, ?_⟩⟩
          · show st.currentY + st.rowHeight + s.spacing + h ≤
              st.currentY + st.rowHeight + s.spacing + max 0 h
            have := le_max_right (0 : ℚ) h
            linarith
          · show s.margin + w ≤ s.margin + w + s.spacing
            linarith
      · show s.margin ≤ s.margin + w + s.spacing
        linarith
      · show s.margin ≤ st.currentY + st.rowHeight + s.spacing
        linarith
      · show (0 : ℚ) ≤ max 0 h
        exact le_max_left _ _
    · -- same row, same page
      rw [if_neg hwr] at hbr
      rw [placeOne_caseA s tw th st img hwr hbr]
      refine ⟨?_, ⟨?_, ?_⟩, ?_, ?_, ?_, ?_⟩
      · exact hpages
      · intro it hit
        rcases List.mem_append.mp hit with hit | hit
        · exact hcurIn it hit
        · rw [List.mem_singleton.mp hit]
          refine ⟨hcx, ?_, hcy, ?_⟩
          · show st.currentX + w ≤ A4_WIDTH_CM - s.margin + EPS
            exact not_lt.mp hwr
          · show st.currentY + h ≤ A4_HEIGHT_CM - s.margin + EPS
            exact not_lt.mp hbr
      · rw [List.pairwise_append]
        refine ⟨hcurPw, List.pairwise_singleton _ _, ?_⟩
        intro a ha b hb
        rw [List.mem_singleton.mp hb]
        intro hov
        obtain ⟨h1, h2, h3, h4⟩ := hov
        obtain ⟨hrow, hdisj⟩ := hitem a ha
        have h2' : st.currentX < a.x + a.w := h2
        have h4' : st.currentY < a.y + a.h := h4
        rcases hdisj with hup | ⟨hy, hx⟩
        · linarith
        · linarith
      · intro it hit
        rcases List.mem_append.mp hit with hit | hit
        · obtain ⟨hrow, hdisj⟩ := hitem it hit
          refine ⟨?_, ?_⟩
          · show it.y + it.h ≤ st.currentY + max st.rowHeight h
            have := le_max_left st.rowHeight h
            linarith
          · rcases hdisj with hup | ⟨hy, hx⟩
            · exact Or.inl hup
            · refine Or.inr ⟨hy, ?_⟩
              show it.x + it.w ≤ st.currentX + w + s.spacing
              linarith
        · rw [List.mem_singleton.mp hit]
          refine ⟨?_, Or.inr ⟨rfl, ?_⟩⟩
          · show st.currentY + h ≤ st.currentY + max st.rowHeight h
            have := le_max_right st.rowHeight h
            linarith
          · show st.currentX + w ≤ st.currentX + w + s.spacing
            linarith
      · show s.margin ≤ st.currentX + w + s.spacing
        linarith
      · exact hcy
      · show (0 : ℚ) ≤ max st.rowHeight h
        exact le_trans hrh (le_max_left _ _)

/-- The packing fold preserves the invariant when every consumed item's
effective slot fits the printable area. -/
lemma foldl_StInv (s : PrintSettings) (tw th : ℚ) (items : List ImageFile)
    (hm : 0 ≤ s.margin) (hsp : 0 ≤ s.spacing)
    (hfit : ∀ img ∈ items,
      0 ≤ (effectiveSize s.orientation tw th img.width img.height).1 ∧
      (effectiveSize s.orientation tw th img.width img.height).1 ≤
        A4_WIDTH_CM - 2 * s.margin ∧
      0 ≤ (effectiveSize s.orientation tw th img.width img.height).2.1 ∧
      (effectiveSize s.orientation tw th img.width img.height).2.1 ≤
        A4_HEIGHT_CM - 2 * s.margin)
    (st : LayoutState) (hst : StInv s.margin st) :
    StInv s.margin (items.foldl (placeOne s tw th) st) := by
  induction items generalizing st with
  | nil => exact hst
  | cons a as ih =>
    simp only [List.foldl_cons]
    obtain ⟨h1, h2, h3, h4⟩ := hfit a (List.mem_cons_self a as)
    exact ih (fun img himg => hfit img (List.mem_cons_of_mem a himg))
      (placeOne s tw th st a) (placeOne_StInv s tw th st a hm hsp h1 h2 h3 h4 hst)

lemma initState_StInv (m : ℚ) : StInv m (initState m) := by
  refine ⟨?_, ⟨?_, ?_⟩, ?_, le_refl m, le_refl m, le_refl 0⟩
  · intro p hp
    cases hp
  · intro it hit
    cases hit
  · exact List.Pairwise.nil
  · intro it hit
    cases hit

/-- Every expanded placement request comes from the input list. -/
lemma mem_allItemsToPrint {images : List ImageFile} {x : ImageFile}
    (hx : x ∈ allItemsToPrint images) : x ∈ images := by
  unfold allItemsToPrint at hx
  rcases List.mem_flatten.mp hx with ⟨l, hl, hxl⟩
  rcases List.mem_map.mp hl with ⟨img, himg, rfl⟩
  rw [List.eq_of_mem_replicate hxl]
  exact himg

/-- Every page produced by packing (before centering) is well-formed. -/
lemma rawPages_PageOk (images : List ImageFile) (s : PrintSettings)
    (hm : 0 ≤ s.margin) (hsp : 0 ≤ s.spacing)
    (hfit : ∀ img ∈ images,
      0 ≤ (effectiveSize s.orientation (getTargetSize s).1 (getTargetSize s).2
        img.width img.height).1 ∧
      (effectiveSize s.orientation (getTargetSize s).1 (getTargetSize s).2
        img.width img.height).1 ≤ A4_WIDTH_CM - 2 * s.margin ∧
      0 ≤ (effectiveSize s.orientation (getTargetSize s).1 (getTargetSize s).2
        img.width img.height).2.1 ∧
      (effectiveSize s.orientation (getTargetSize s).1 (getTargetSize s).2
        img.width img.height).2.1 ≤ A4_HEIGHT_CM - 2 * s.margin) :
    ∀ p ∈ rawPages images s, PageOk s.margin p.images := by
  have hst : StInv s.margin (packItems images s) := by
    unfold packItems
    exact foldl_StInv s (getTargetSize s).1 (getTargetSize s).2
      (allItemsToPrint images) hm hsp
      (fun img himg => hfit img (mem_allItemsToPrint himg))
      (initState s.margin) (initState_StInv s.margin)
  obtain ⟨hpages, hcur, hrest⟩ := hst
  intro p hp
  simp only [rawPages] at hp
  by_cases h : 0 < (packItems images s).currentImages.length
  · rw [if_pos h] at hp
    rcases List.mem_append.mp hp with hp | hp
    · exact hpages p hp
    · rw [List.mem_singleton.mp hp]
      exact hcur
  · rw [if_neg h] at hp
    exact hpages p hp

lemma le_minX {L : List PlacedItem} (hne : L ≠ []) {m : ℚ}
    (h : ∀ it ∈ L, m ≤ it.x) : m ≤ minX L := by
  apply le_listMin
  · simpa using hne
  · intro x hx
    rcases List.mem_map.mp hx with ⟨it, hit, rfl⟩
    exact h it hit

lemma minX_le_mem {L : List PlacedItem} {it : PlacedItem} (hit : it ∈ L) :
    minX L ≤ it.x :=
  listMin_le (List.mem_map.mpr ⟨it, hit, rfl⟩)

lemma mem_le_maxXW {L : List PlacedItem} {it : PlacedItem} (hit : it ∈ L) :
    it.x + it.w ≤ maxXW L :=
  le_listMax (List.mem_map.mpr ⟨it, hit, rfl⟩)

lemma maxXW_le {L : List PlacedItem} (hne : L ≠ []) {M : ℚ}
    (h : ∀ it ∈ L, it.x + it.w ≤ M) : maxXW L ≤ M := by
  apply listMax_le
  · simpa using hne
  · intro x hx
    rcases List.mem_map.mp hx with ⟨it, hit, rfl⟩
    exact h it hit

/-- Centering a well-formed page keeps every item inside the
epsilon-tolerant printable area and keeps items disjoint. -/
lemma centerPage_Ok (m : ℚ) (p : Page) (hp : PageOk m p.images) :
    (∀ it ∈ (centerPage p).images, rectInPageEps m it) ∧
    (centerPage p).images.Pairwise (fun a b => ¬ overlaps a b) := by
  obtain ⟨hin, hpw⟩ := hp
  have heps : 0 < EPS := EPS_pos
  by_cases hne : p.images = []
  · unfold centerPage
    rw [if_pos hne]
    constructor
    · intro it hit
      rw [hne] at hit
      cases hit
    · rw [hne]
      exact List.Pairwise.nil
  · unfold centerPage
    rw [if_neg hne]
    set c := (A4_WIDTH_CM - (maxXW p.images - minX p.images)) / 2 - minX p.images
      with hc
    constructor
    · intro it' hit'
      rcases List.mem_map.mp hit' with ⟨it, hit, rfl⟩
      obtain ⟨hx1, hx2, hy1, hy2⟩ := hin it hit
      have hmn : m ≤ minX p.images := le_minX hne (fun a ha => (hin a ha).1)
      have hmx : maxXW p.images ≤ A4_WIDTH_CM - m + EPS :=
        maxXW_le hne (fun a ha => (hin a ha).2.1)
      have hmnle : minX p.images ≤ it.x := minX_le_mem hit
      have hmxge : it.x + it.w ≤ maxXW p.images := mem_le_maxXW hit
      refine ⟨?_, ?_, ?_, ?_⟩
      · show m - EPS ≤ it.x + c
        rw [hc]
        linarith
      · show it.x + c + it.w ≤ A4_WIDTH_CM - m + EPS
        rw [hc]
        linarith
      · show m - EPS ≤ it.y
        linarith
      · show it.y + it.h ≤ A4_HEIGHT_CM - m + EPS
        exact hy2
    · rw [List.pairwise_map]
      apply List.Pairwise.imp ?_ hpw
      intro a b hab hov
      apply hab
      obtain ⟨h1, h2, h3, h4⟩ := hov
      have h1' : a.x + c < b.x + c + b.w := h1
      have h2' : b.x + c < a.x + c + a.w := h2
      exact ⟨by linarith, by linarith, h3, h4⟩

/-- C1: when margin and spacing are non-negative and every item's
effective slot fits the printable area, every page of the final layout
(after centering) consists of pairwise non-overlapping items each lying
within `[margin, pageDimension − margin]` on both axes up to the
0.001 cm epsilon tolerance. -/
theorem C1_layout_invariants (images : List ImageFile) (s : PrintSettings)
    (hm : 0 ≤ s.margin) (hsp : 0 ≤ s.spacing)
    (hfit : ∀ img ∈ images,
      0 ≤ (effectiveSize s.orientation (getTargetSize s).1 (getTargetSize s).2
        img.width img.height).1 ∧
      (effectiveSize s.orientation (getTargetSize s).1 (getTargetSize s).2
        img.width img.height).1 ≤ A4_WIDTH_CM - 2 * s.margin ∧
      0 ≤ (effectiveSize s.orientation (getTargetSize s).1 (getTargetSize s).2
        img.width img.height).2.1 ∧
      (effectiveSize s.orientation (getTargetSize s).1 (getTargetSize s).2
        img.width img.height).2.1 ≤ A4_HEIGHT_CM - 2 * s.margin) :
    ∀ p ∈ calculateLayout images s,
      (∀ it ∈ p.images, rectInPageEps s.margin it) ∧
      p.images.Pairwise (fun a b => ¬ overlaps a b) := by
  intro p hp
  unfold calculateLayout at hp
  rcases List.mem_map.mp hp with ⟨q, hq, rfl⟩
  exact centerPage_Ok s.margin q (rawPages_PageOk images s hm hsp hfit q hq)

/-- Witness for C1 at the scenario-1 input. -/
theorem C1_layout_invariants_witness :
    0 ≤ scenario1Settings.margin ∧ 0 ≤ scenario1Settings.spacing ∧
    (∀ img ∈ scenario1Images,
      0 ≤ (effectiveSize scenario1Settings.orientation
        (getTargetSize scenario1Settings).1 (getTargetSize scenario1Settings).2
        img.width img.height).1 ∧
      (effectiveSize scenario1Settings.orientation
        (getTargetSize scenario1Settings).1 (getTargetSize scenario1Settings).2
        img.width img.height).1 ≤ A4_WIDTH_CM - 2 * scenario1Settings.margin ∧
      0 ≤ (effectiveSize scenario1Settings.orientation
        (getTargetSize scenario1Settings).1 (getTargetSize scenario1Settings).2
        img.width img.height).2.1 ∧
      (effectiveSize scenario1Settings.orientation
        (getTargetSize scenario1Settings).1 (getTargetSize scenario1Settings).2
        img.width img.height).2.1 ≤ A4_HEIGHT_CM - 2 * scenario1Settings.margin) ∧
    (∀ p ∈ calculateLayout scenario1Images scenario1Settings,
      (∀ it ∈ p.images, rectInPageEps scenario1Settings.margin it) ∧
      p.images.Pairwise (fun a b => ¬ overlaps a b)) := by
  have hfit : ∀ img ∈ scenario1Images,
      0 ≤ (effectiveSize scenario1Settings.orientation
        (getTargetSize scenario1Settings).1 (getTargetSize scenario1Settings).2
        img.width img.height).1 ∧
      (effectiveSize scenario1Settings.orientation
        (getTargetSize scenario1Settings).1 (getTargetSize scenario1Settings).2
        img.width img.height).1 ≤ A4_WIDTH_CM - 2 * scenario1Settings.margin ∧
      0 ≤ (effectiveSize scenario1Settings.orientation
        (getTargetSize scenario1Settings).1 (getTargetSize scenario1Settings).2
        img.width img.height).2.1 ∧
      (effectiveSize scenario1Settings.orientation
        (getTargetSize scenario1Settings).1 (getTargetSize scenario1Settings).2
        img.width img.height).2.1 ≤ A4_HEIGHT_CM - 2 * scenario1Settings.margin := by
    intro img himg
    fin_cases himg <;>
      norm_num [effectiveSize, getTargetSize, scenario1Settings, STANDARD_SIZES,
        List.find?, orDefault, A4_WIDTH_CM, A4_HEIGHT_CM]
  exact ⟨by norm_num [scenario1Settings], by norm_num [scenario1Settings], hfit,
    C1_layout_invariants scenario1Images scenario1Settings
      (by norm_num [scenario1Settings]) (by norm_num [scenario1Settings]) hfit⟩

end PhotoPrint
